import Mathlib

/-!
Shallow embedding of the event-to-task upload pipeline of
`src/file_listener_service.py` (classes `FileUploadHandler` and
`FileUploadListener`).

Modelling conventions:
* A filesystem path is its list of `os.sep`-separated segments
  (`"/watch/a.txt"` is `["", "watch", "a.txt"]`), so that
  `os.path.basename` is the last segment and `os.path.dirname(p).split(os.sep)`
  is the list of all segments but the last.
* All filesystem and network effects are oracles passed to the operations:
  a stability probe receives the sequence of `os.path.getsize` results
  (`none` models `OSError`/`FileNotFoundError`), an admission receives the
  result of `_calculate_file_md5` (`none` models a raised exception), a worker
  step receives the `os.path.exists` result, the uploader outcome and the
  result of the post-upload md5 recomputation.
* The shared mutable state of `FileUploadListener` (`upload_queue`,
  `processing_files`, `uploaded_files`, `stats`, `running`) is an explicit
  record; each Python operation is a state-transformer on it.  The ghost field
  `uploader_calls` counts invocations of `self.uploader._upload_single_file`.
-/

namespace FileListener

/-- A path, as its list of `os.sep`-separated segments. -/
abbrev FsPath := List String

/-- Python `str.endswith(suf)`: the last `len(suf)` characters equal `suf`. -/
def str_ends_with (s suf : String) : Bool :=
  decide (suf.data = s.data.drop (s.data.length - suf.data.length))

/-- Python `str.startswith(pre)`: the first `len(pre)` characters equal `pre`. -/
def str_starts_with (s pre : String) : Bool :=
  decide (pre.data = s.data.take pre.data.length)

/-- The `temp_patterns` list of `FileUploadHandler._should_skip_file`
(lines 84-87). -/
def temp_patterns : List String :=
  [".tmp", ".temp", ".swp", ".lock", ".part", "~", ".bak", ".backup", "#", ".DS_Store"]

/-- The `skip_dirs` list of `FileUploadHandler._should_skip_file` (line 105). -/
def skip_dirs : List String :=
  ["__pycache__", ".git", ".svn", "node_modules"]

/-- `FileUploadHandler._should_skip_file` (lines 78-111): `file_name` is
`os.path.basename(file_path)`, `file_dir` is `os.path.dirname(file_path)`;
the four rules are tried in order with an early `return True`, and rule 4
scans `file_dir.split(os.sep)`, i.e. only the directory part's segments. -/
def should_skip_file (p : FsPath) : Bool :=
  let file_name := p.getLastD ""
  let file_dir := p.dropLast
  if temp_patterns.any (fun pat => str_ends_with file_name pat || str_starts_with file_name pat) then true
  else if str_starts_with file_name "." && decide (file_name ∉ [".env", ".gitignore"]) then true
  else if str_ends_with file_name ".log" then true
  else if skip_dirs.any (fun d => decide (d ∈ file_dir)) then true
  else false

/-- The inner loop of `FileUploadHandler._is_file_stable` (lines 116-127):
iteration `i` takes the samples `sample (2*i)` (= `size1`) and
`sample (2*i+1)` (= `size2`); equal sizes return `True` at once, a `none`
sample models the `OSError`/`FileNotFoundError` that aborts the whole probe
with `False` (lines 129-131), and exhausting the attempts returns `False`. -/
def stable_probe (sample : Nat → Option Nat) : Nat → Nat → Bool
  | _, 0 => false
  | i, k + 1 =>
    match sample (2 * i), sample (2 * i + 1) with
    | some s1, some s2 => if s1 = s2 then true else stable_probe sample (i + 1) k
    | _, _ => false

/-- `FileUploadHandler._is_file_stable` (lines 113-131), with the stream of
`os.path.getsize` results passed as the oracle `sample` and
`max_attempts` defaulting to 3 at the call site. -/
def is_file_stable (sample : Nat → Option Nat) (max_attempts : Nat) : Bool :=
  stable_probe sample 0 max_attempts

/-- Outcome of the `self.uploader._upload_single_file` call (line 262):
`ok` models `success = True`, `fail` models `success = False`, and `exn`
models an exception raised by the call (caught at line 274). -/
inductive UploadResult where
  | ok
  | fail
  | exn
deriving DecidableEq

/-- The mutable state of a `FileUploadListener` (lines 164-181), restricted to
the fields the pipeline reads or writes.  `uploader_calls` is a ghost counter
of uploader invocations; `running` is the `self.running` flag (set in
`start`, cleared in `stop`). -/
structure ListenerState where
  upload_queue : List FsPath
  processing_files : Finset FsPath
  uploaded_files : FsPath → Option String
  total_processed : Nat
  success_count : Nat
  failed_count : Nat
  skipped_count : Nat
  uploader_calls : Nat
  running : Bool

/-- The state right after `FileUploadListener.start` on a fresh instance:
empty queue, empty in-flight set, empty dedup cache, all counters zero and
`running = True`. -/
def init_state : ListenerState :=
  { upload_queue := []
    processing_files := ∅
    uploaded_files := fun _ => none
    total_processed := 0
    success_count := 0
    failed_count := 0
    skipped_count := 0
    uploader_calls := 0
    running := true }

/-- `FileUploadListener.add_upload_task` (lines 219-238): drop the event if the
path is in `processing_files`; otherwise compute the md5 (`md5 = none` models
the exception caught at line 237, which only logs and returns); drop if the
dedup cache holds the same digest; otherwise append the path to the queue. -/
def add_upload_task (s : ListenerState) (p : FsPath) (md5 : Option String) : ListenerState :=
  if p ∈ s.processing_files then s
  else
    match md5 with
    | none => s
    | some d =>
      if s.uploaded_files p = some d then s
      else { s with upload_queue := s.upload_queue ++ [p] }

/-- `FileUploadHandler._handle_file_change` (lines 62-76): return at once on a
skipped path, probe stability (the 0.5s settle sleep is pure timing and not
modelled), and hand stable paths to `add_upload_task`. -/
def handle_file_change (s : ListenerState) (p : FsPath) (sample : Nat → Option Nat)
    (max_attempts : Nat) (md5 : Option String) : ListenerState :=
  if should_skip_file p then s
  else if is_file_stable sample max_attempts then add_upload_task s p md5
  else s

/-- The body of `FileUploadListener._upload_worker` for one dequeued task
(lines 248-281): add the path to `processing_files` and bump
`total_processed`; if the file is gone bump `skipped_count`; otherwise call
the uploader — on `ok` with a successful md5 recomputation record the digest
and bump `success_count`, on `ok` with a failing recomputation (exception at
line 266, caught at line 274), on `fail` or on `exn` bump `failed_count`; the
`finally` block (lines 278-281) always discards the path from
`processing_files`.  `_get_relative_path` is total here: every enqueued path
lies under the watched root. -/
def process_task (s : ListenerState) (p : FsPath) (file_present : Bool)
    (res : UploadResult) (md5_after : Option String) : ListenerState :=
  let s1 := { s with processing_files := insert p s.processing_files
                     total_processed := s.total_processed + 1 }
  let s2 :=
    if !file_present then { s1 with skipped_count := s1.skipped_count + 1 }
    else
      let s1c := { s1 with uploader_calls := s1.uploader_calls + 1 }
      match res, md5_after with
      | UploadResult.ok, some d =>
        { s1c with uploaded_files := fun q => if q = p then some d else s1c.uploaded_files q
                   success_count := s1c.success_count + 1 }
      | UploadResult.ok, none => { s1c with failed_count := s1c.failed_count + 1 }
      | UploadResult.fail, _ => { s1c with failed_count := s1c.failed_count + 1 }
      | UploadResult.exn, _ => { s1c with failed_count := s1c.failed_count + 1 }
  { s2 with processing_files := s2.processing_files.erase p }

/-- One iteration of the `while self.running` loop of
`FileUploadListener._upload_worker` (lines 240-287): nothing happens when the
flag is down; an empty queue raises `Empty` and the loop just continues;
otherwise the head of the FIFO queue is dequeued and processed. -/
def worker_step (s : ListenerState) (file_present : Bool)
    (res : UploadResult) (md5_after : Option String) : ListenerState :=
  if s.running then
    match s.upload_queue with
    | [] => s
    | p :: rest => process_task { s with upload_queue := rest } p file_present res md5_after
  else s

/-- An observable operation on the listener state: a filesystem change event
(with its stability-sample and md5 oracles), one worker iteration (with its
filesystem/uploader oracles), or `FileUploadListener.stop` (which only clears
`self.running`; lines 318-343 touch no counter, no cache and no set). -/
inductive Op where
  | event (p : FsPath) (sample : Nat → Option Nat) (max_attempts : Nat) (md5 : Option String)
  | work (file_present : Bool) (res : UploadResult) (md5_after : Option String)
  | stop

/-- Interpret one operation. -/
def step (s : ListenerState) : Op → ListenerState
  | Op.event p sample m md5 => handle_file_change s p sample m md5
  | Op.work fp res md => worker_step s fp res md
  | Op.stop => { s with running := false }

/-- Run a sequence of operations from the freshly started listener. -/
def run_ops (ops : List Op) : ListenerState :=
  ops.foldl step init_state

/-- A sample stream of constant size 10: the file is present and stable. -/
def const_sample : Nat → Option Nat := fun _ => some 10

/-- A sample stream that always fails: the file is gone for good. -/
def gone_sample : Nat → Option Nat := fun _ => none

/-- The path `/watch/a.txt`. -/
def pA : FsPath := ["", "watch", "a.txt"]

example : should_skip_file pA = false := by decide
example : should_skip_file ["", "watch", "node_modules"] = false := by decide
example : should_skip_file ["", "node_modules", "x.txt"] = true := by decide
example : should_skip_file ["", "watch", "x.tmp"] = true := by decide
example : should_skip_file ["", "watch", ".env"] = false := by decide
example : should_skip_file ["", "watch", ".hidden"] = true := by decide
example : should_skip_file ["", "watch", "#x"] = true := by decide
example : should_skip_file ["", "watch", "run.log"] = true := by decide
example : is_file_stable const_sample 3 = true := by decide
example : is_file_stable gone_sample 3 = false := by decide
example : (run_ops [Op.event pA const_sample 3 (some "d"),
                    Op.event pA const_sample 3 (some "d")]).upload_queue = [pA, pA] := by decide
example : (run_ops [Op.event pA const_sample 3 (some "d"),
                    Op.work true UploadResult.ok (some "d")]).success_count = 1 := by decide

/-! ### Helper lemmas shared by the claim theorems -/

/-- `add_upload_task` either drops the event or appends the path to the queue. -/
lemma add_upload_task_cases (s : ListenerState) (p : FsPath) (md5 : Option String) :
    add_upload_task s p md5 = s ∨
    add_upload_task s p md5 = { s with upload_queue := s.upload_queue ++ [p] } := by
  unfold add_upload_task
  by_cases hp : p ∈ s.processing_files
  · rw [if_pos hp]; exact Or.inl rfl
  · rw [if_neg hp]
    cases md5 with
    | none => exact Or.inl rfl
    | some d =>
      dsimp only
      by_cases hd : s.uploaded_files p = some d
      · rw [if_pos hd]; exact Or.inl rfl
      · rw [if_neg hd]; exact Or.inr rfl

/-- `handle_file_change` either drops the event or appends the path to the queue. -/
lemma handle_file_change_cases (s : ListenerState) (p : FsPath) (sample : Nat → Option Nat)
    (m : Nat) (md5 : Option String) :
    handle_file_change s p sample m md5 = s ∨
    handle_file_change s p sample m md5 = { s with upload_queue := s.upload_queue ++ [p] } := by
  unfold handle_file_change
  split
  · exact Or.inl rfl
  · split
    · exact add_upload_task_cases s p md5
    · exact Or.inl rfl

/-- `process_task` leaves the queue untouched. -/
lemma process_task_queue (s : ListenerState) (p : FsPath) (fp : Bool)
    (res : UploadResult) (md : Option String) :
    (process_task s p fp res md).upload_queue = s.upload_queue := by
  cases fp <;> cases res <;> cases md <;> rfl

/-- `process_task` ends with the path erased from the in-flight set, whatever
the outcome: the intermediate `insert` of line 248 is undone by the `finally`
discard of line 280. -/
lemma process_task_in_flight (s : ListenerState) (p : FsPath) (fp : Bool)
    (res : UploadResult) (md : Option String) :
    (process_task s p fp res md).processing_files = s.processing_files.erase p := by
  cases fp <;> cases res <;> cases md <;>
    simp [process_task, Finset.erase_insert_eq_erase]

/-- `process_task` bumps `total_processed` by exactly one. -/
lemma process_task_total (s : ListenerState) (p : FsPath) (fp : Bool)
    (res : UploadResult) (md : Option String) :
    (process_task s p fp res md).total_processed = s.total_processed + 1 := by
  cases fp <;> cases res <;> cases md <;> rfl

/-- `process_task` bumps exactly one of the three outcome counters. -/
lemma process_task_outcome (s : ListenerState) (p : FsPath) (fp : Bool)
    (res : UploadResult) (md : Option String) :
    ((process_task s p fp res md).success_count = s.success_count + 1 ∧
     (process_task s p fp res md).failed_count = s.failed_count ∧
     (process_task s p fp res md).skipped_count = s.skipped_count) ∨
    ((process_task s p fp res md).success_count = s.success_count ∧
     (process_task s p fp res md).failed_count = s.failed_count + 1 ∧
     (process_task s p fp res md).skipped_count = s.skipped_count) ∨
    ((process_task s p fp res md).success_count = s.success_count ∧
     (process_task s p fp res md).failed_count = s.failed_count ∧
     (process_task s p fp res md).skipped_count = s.skipped_count + 1) := by
  cases fp <;> cases res <;> cases md
  · exact Or.inr (Or.inr ⟨rfl, rfl, rfl⟩)
  · exact Or.inr (Or.inr ⟨rfl, rfl, rfl⟩)
  · exact Or.inr (Or.inr ⟨rfl, rfl, rfl⟩)
  · exact Or.inr (Or.inr ⟨rfl, rfl, rfl⟩)
  · exact Or.inr (Or.inr ⟨rfl, rfl, rfl⟩)
  · exact Or.inr (Or.inr ⟨rfl, rfl, rfl⟩)
  · exact Or.inr (Or.inl ⟨rfl, rfl, rfl⟩)
  · exact Or.inl ⟨rfl, rfl, rfl⟩
  · exact Or.inr (Or.inl ⟨rfl, rfl, rfl⟩)
  · exact Or.inr (Or.inl ⟨rfl, rfl, rfl⟩)
  · exact Or.inr (Or.inl ⟨rfl, rfl, rfl⟩)
  · exact Or.inr (Or.inl ⟨rfl, rfl, rfl⟩)

/-- The dedup cache is untouched unless the task reached the success branch:
missing file, `fail` result, exception, or a failing md5 recomputation all
leave `uploaded_files` as it was. -/
lemma process_task_uploaded_of_no_success (s : ListenerState) (p : FsPath) (fp : Bool)
    (res : UploadResult) (md : Option String)
    (h : fp = false ∨ res = UploadResult.fail ∨ res = UploadResult.exn ∨ md = none) :
    (process_task s p fp res md).uploaded_files = s.uploaded_files := by
  cases fp <;> cases res <;> cases md <;> first
    | rfl
    | simp_all

/-- An early-return chain of four boolean tests equals their disjunction. -/
lemma if_chain_eq_or (a b c d : Bool) :
    (if a then true else if b then true else if c then true else if d then true else false)
      = (a || b || c || d) := by
  cases a <;> cases b <;> cases c <;> cases d <;> rfl

/-- Characterisation of the probe loop: with every `getsize` call succeeding,
iterating from attempt `i` with `k` attempts left succeeds exactly when one of
the remaining compared pairs is equal. -/
lemma stable_probe_iff (sample : Nat → Option Nat) (h : ∀ n, (sample n).isSome) :
    ∀ (k i : Nat), stable_probe sample i k = true ↔
      ∃ j, j < k ∧ sample (2 * (i + j)) = sample (2 * (i + j) + 1) := by
  intro k
  induction k with
  | zero => intro i; simp [stable_probe]
  | succ k ih =>
    intro i
    obtain ⟨a, ha⟩ := Option.isSome_iff_exists.mp (h (2 * i))
    obtain ⟨b, hb⟩ := Option.isSome_iff_exists.mp (h (2 * i + 1))
    unfold stable_probe
    rw [ha, hb]
    dsimp only
    by_cases hab : a = b
    · rw [if_pos hab]
      constructor
      · intro _
        exact ⟨0, Nat.succ_pos k, by rw [Nat.add_zero, ha, hb, hab]⟩
      · intro _; rfl
    · rw [if_neg hab, ih (i + 1)]
      constructor
      · rintro ⟨j, hj, hje⟩
        exact ⟨j + 1, by omega, by rw [show i + (j + 1) = i + 1 + j by omega]; exact hje⟩
      · rintro ⟨j, hj, hje⟩
        cases j with
        | zero =>
          exfalso
          rw [Nat.add_zero, ha, hb] at hje
          exact hab (Option.some.inj hje)
        | succ j =>
          exact ⟨j, by omega, by rw [show i + 1 + j = i + (j + 1) by omega]; exact hje⟩

/-- Componentwise order on the four statistic counters. -/
def counters_le (a b : ListenerState) : Prop :=
  a.total_processed ≤ b.total_processed ∧ a.success_count ≤ b.success_count ∧
  a.failed_count ≤ b.failed_count ∧ a.skipped_count ≤ b.skipped_count

lemma counters_le_rfl (a : ListenerState) : counters_le a a :=
  ⟨le_refl _, le_refl _, le_refl _, le_refl _⟩

lemma counters_le_trans {a b c : ListenerState}
    (h1 : counters_le a b) (h2 : counters_le b c) : counters_le a c :=
  ⟨le_trans h1.1 h2.1, le_trans h1.2.1 h2.2.1, le_trans h1.2.2.1 h2.2.2.1,
   le_trans h1.2.2.2 h2.2.2.2⟩

/-- A worker iteration either changes nothing (flag down or empty queue) or
processes the head of the queue. -/
lemma worker_step_cases (s : ListenerState) (fp : Bool) (res : UploadResult) (md : Option String) :
    worker_step s fp res md = s ∨
    ∃ p rest, s.upload_queue = p :: rest ∧ s.running = true ∧
      worker_step s fp res md = process_task { s with upload_queue := rest } p fp res md := by
  unfold worker_step
  cases hr : s.running with
  | false => exact Or.inl (by simp)
  | true =>
    cases hq : s.upload_queue with
    | nil => exact Or.inl (by simp)
    | cons p rest => exact Or.inr ⟨p, rest, rfl, rfl, by simp⟩

/-- A worker iteration that dequeues a task bumps `total_processed` by one. -/
lemma worker_step_total (s : ListenerState) (fp : Bool) (res : UploadResult) (md : Option String)
    (p : FsPath) (rest : List FsPath) (hr : s.running = true) (hq : s.upload_queue = p :: rest) :
    (worker_step s fp res md).total_processed = s.total_processed + 1 := by
  unfold worker_step
  rw [hq, if_pos hr]
  exact process_task_total { s with upload_queue := rest } p fp res md

/-- A worker iteration that dequeues a task bumps exactly one of the three
outcome counters. -/
lemma worker_step_outcome (s : ListenerState) (fp : Bool) (res : UploadResult) (md : Option String)
    (p : FsPath) (rest : List FsPath) (hr : s.running = true) (hq : s.upload_queue = p :: rest) :
    ((worker_step s fp res md).success_count = s.success_count + 1 ∧
     (worker_step s fp res md).failed_count = s.failed_count ∧
     (worker_step s fp res md).skipped_count = s.skipped_count) ∨
    ((worker_step s fp res md).success_count = s.success_count ∧
     (worker_step s fp res md).failed_count = s.failed_count + 1 ∧
     (worker_step s fp res md).skipped_count = s.skipped_count) ∨
    ((worker_step s fp res md).success_count = s.success_count ∧
     (worker_step s fp res md).failed_count = s.failed_count ∧
     (worker_step s fp res md).skipped_count = s.skipped_count + 1) := by
  unfold worker_step
  rw [hq, if_pos hr]
  exact process_task_outcome { s with upload_queue := rest } p fp res md

/-- Each operation leaves every counter unchanged or bumps it by one. -/
lemma step_counters (s : ListenerState) (op : Op) :
    counters_le s (step s op) ∧
    (step s op).total_processed ≤ s.total_processed + 1 ∧
    (step s op).success_count ≤ s.success_count + 1 ∧
    (step s op).failed_count ≤ s.failed_count + 1 ∧
    (step s op).skipped_count ≤ s.skipped_count + 1 := by
  cases op with
  | event p sample m md5 =>
    rcases handle_file_change_cases s p sample m md5 with h | h <;> simp only [step, h] <;>
      exact ⟨counters_le_rfl _, Nat.le_succ _, Nat.le_succ _, Nat.le_succ _, Nat.le_succ _⟩
  | stop =>
    exact ⟨counters_le_rfl _, Nat.le_succ _, Nat.le_succ _, Nat.le_succ _, Nat.le_succ _⟩
  | work fp res md =>
    rcases worker_step_cases s fp res md with h | ⟨p, rest, hq, hr, h⟩
    · simp only [step, h]
      exact ⟨counters_le_rfl _, Nat.le_succ _, Nat.le_succ _, Nat.le_succ _, Nat.le_succ _⟩
    · have ht := worker_step_total s fp res md p rest hr hq
      have ho := worker_step_outcome s fp res md p rest hr hq
      simp only [step]
      rcases ho with ⟨ha, hb, hc⟩ | ⟨ha, hb, hc⟩ | ⟨ha, hb, hc⟩ <;>
        exact ⟨⟨by omega, by omega, by omega, by omega⟩, by omega, by omega, by omega, by omega⟩

/-- Each operation preserves the drain invariant: counters balanced and
in-flight set empty. -/
lemma step_drain_inv (s : ListenerState) (op : Op)
    (h1 : s.total_processed = s.success_count + s.failed_count + s.skipped_count)
    (h2 : s.processing_files = ∅) :
    (step s op).total_processed =
      (step s op).success_count + (step s op).failed_count + (step s op).skipped_count ∧
    (step s op).processing_files = ∅ := by
  cases op with
  | event p sample m md5 =>
    rcases handle_file_change_cases s p sample m md5 with h | h <;> simp only [step, h] <;>
      exact ⟨h1, h2⟩
  | stop => exact ⟨h1, h2⟩
  | work fp res md =>
    rcases worker_step_cases s fp res md with h | ⟨p, rest, hq, hr, h⟩
    · simp only [step, h]; exact ⟨h1, h2⟩
    · have ht := worker_step_total s fp res md p rest hr hq
      have ho := worker_step_outcome s fp res md p rest hr hq
      simp only [step] at *
      constructor
      · rcases ho with ⟨ha, hb, hc⟩ | ⟨ha, hb, hc⟩ | ⟨ha, hb, hc⟩ <;> omega
      · rw [h]
        have hf := process_task_in_flight { s with upload_queue := rest } p fp res md
        rw [hf]
        show s.processing_files.erase p = ∅
        rw [h2]
        exact Finset.erase_empty p

/-- The drain invariant holds along every run from the initial state. -/
lemma run_drain_inv (ops : List Op) :
    (run_ops ops).total_processed =
      (run_ops ops).success_count + (run_ops ops).failed_count + (run_ops ops).skipped_count ∧
    (run_ops ops).processing_files = ∅ := by
  have key : ∀ (l : List Op) (s : ListenerState),
      s.total_processed = s.success_count + s.failed_count + s.skipped_count →
      s.processing_files = ∅ →
      (l.foldl step s).total_processed =
        (l.foldl step s).success_count + (l.foldl step s).failed_count +
          (l.foldl step s).skipped_count ∧
      (l.foldl step s).processing_files = ∅ := by
    intro l
    induction l with
    | nil => intro s h1 h2; exact ⟨h1, h2⟩
    | cons op l ih =>
      intro s h1 h2
      have hs := step_drain_inv s op h1 h2
      exact ih (step s op) hs.1 hs.2
  exact key ops init_state rfl rfl

/-- Counters never decrease along any continuation of a run. -/
lemma foldl_counters_le (ops : List Op) : ∀ s : ListenerState, counters_le s (ops.foldl step s) := by
  induction ops with
  | nil => intro s; exact counters_le_rfl s
  | cons op ops ih => intro s; exact counters_le_trans (step_counters s op).1 (ih (step s op))

/-! ### Claim theorems -/

/-- Two change events for the same fresh, stable path delivered before any
worker dequeues. -/
def dup_trace : List Op :=
  [Op.event pA const_sample 3 (some "d"), Op.event pA const_sample 3 (some "d")]

/-- C1: REFUTED. The claim says at most one UploadTask per absolute path can
exist in the queue or be held by a worker, with in-flight membership inserted
before enqueue.  In the code, `add_upload_task` only consults
`processing_files`, and a worker inserts the path there only at dequeue time
(line 248), never before enqueue: after a single event the queue holds the
path while the in-flight set is still empty, and a second event for the same
path enqueues a duplicate, so the run below ends with the queue `[pA, pA]`
and the universally quantified claim is false. -/
theorem c1_counterexample :
    (run_ops dup_trace).upload_queue = [pA, pA] ∧
    (run_ops [Op.event pA const_sample 3 (some "d")]).processing_files = ∅ ∧
    ¬ (∀ (ops : List Op) (p : FsPath), (run_ops ops).upload_queue.count p ≤ 1) := by
  refine ⟨by decide, by decide, fun hcl => ?_⟩
  have h := hcl dup_trace pA
  have h2 : (run_ops dup_trace).upload_queue.count pA = 2 := by decide
  omega

/-- C1 (amended): an event for a path currently held by a worker (present in
`processing_files`) is dropped and the state is unchanged; in-flight
membership is inserted only at dequeue and removed after finalisation, and
duplicate UploadTasks for the same path may coexist in the Task Queue. -/
theorem c1_amended (s : ListenerState) (p : FsPath) (md5 : Option String)
    (h : p ∈ s.processing_files) : add_upload_task s p md5 = s := by
  unfold add_upload_task
  rw [if_pos h]

/-- A state in which a worker currently holds `/watch/a.txt`. -/
def s_busy : ListenerState := { init_state with processing_files := {pA} }

/-- Witness for `c1_amended` at a concrete state. -/
theorem c1_amended_witness :
    pA ∈ s_busy.processing_files ∧ add_upload_task s_busy pA (some "d") = s_busy :=
  ⟨by decide, c1_amended s_busy pA (some "d") (by decide)⟩

/-- C2: for every exit path of task processing — missing file
(`file_present = false`), upload success, upload failure, raised exception,
and a failing post-success md5 recomputation — the `finally` block discards
the path from the in-flight set exactly once, so the processed path is never
left behind in `processing_files`. -/
theorem c2_release_on_every_exit (s : ListenerState) (p : FsPath) (file_present : Bool)
    (res : UploadResult) (md5_after : Option String) :
    (process_task s p file_present res md5_after).processing_files =
      s.processing_files.erase p ∧
    p ∉ (process_task s p file_present res md5_after).processing_files := by
  refine ⟨process_task_in_flight s p file_present res md5_after, ?_⟩
  rw [process_task_in_flight]
  exact Finset.not_mem_erase p s.processing_files

/-- C3: when the current digest of a path equals the digest recorded in the
dedup cache, both `add_upload_task` and the whole event handler leave the
state unchanged: nothing is enqueued and (since the uploader runs only on
dequeued tasks and the ghost `uploader_calls` field is part of the unchanged
state) the uploader is not invoked. -/
theorem c3_unchanged_content_dropped (s : ListenerState) (p : FsPath) (d : String)
    (sample : Nat → Option Nat) (m : Nat) (h : s.uploaded_files p = some d) :
    add_upload_task s p (some d) = s ∧ handle_file_change s p sample m (some d) = s := by
  have hadd : add_upload_task s p (some d) = s := by
    unfold add_upload_task
    by_cases hp : p ∈ s.processing_files
    · rw [if_pos hp]
    · rw [if_neg hp]
      dsimp only
      rw [if_pos h]
  refine ⟨hadd, ?_⟩
  unfold handle_file_change
  by_cases hsk : should_skip_file p = true
  · rw [if_pos hsk]
  · rw [if_neg hsk]
    by_cases hst : is_file_stable sample m = true
    · rw [if_pos hst]; exact hadd
    · rw [if_neg hst]

/-- A state whose dedup cache already records digest `"d"` for `/watch/a.txt`. -/
def s_dedup : ListenerState :=
  { init_state with uploaded_files := fun q => if q = pA then some "d" else none }

/-- Witness for `c3_unchanged_content_dropped` at a concrete state. -/
theorem c3_witness :
    s_dedup.uploaded_files pA = some "d" ∧
    add_upload_task s_dedup pA (some "d") = s_dedup ∧
    handle_file_change s_dedup pA const_sample 3 (some "d") = s_dedup := by
  have h : s_dedup.uploaded_files pA = some "d" := by simp [s_dedup]
  have hc := c3_unchanged_content_dropped s_dedup pA "d" const_sample 3 h
  exact ⟨h, hc.1, hc.2⟩

/-- C4: in every state reachable from the freshly started listener — in
particular in the state left by `stop()` once the queue is fully drained,
since `stop` touches neither the counters nor the sets — the statistics
balance `total_processed = success + failed + skipped` and the in-flight set
is empty. -/
theorem c4_drain (ops : List Op) (_h : (run_ops ops).upload_queue = []) :
    (run_ops ops).total_processed =
      (run_ops ops).success_count + (run_ops ops).failed_count +
        (run_ops ops).skipped_count ∧
    (run_ops ops).processing_files = ∅ :=
  run_drain_inv ops

/-- One event, one successful worker iteration, then `stop`: the queue drains. -/
def drain_trace : List Op :=
  [Op.event pA const_sample 3 (some "d"), Op.work true UploadResult.ok (some "d"), Op.stop]

/-- Witness for `c4_drain` on a concrete drained run. -/
theorem c4_witness :
    (run_ops drain_trace).upload_queue = [] ∧
    (run_ops drain_trace).total_processed =
      (run_ops drain_trace).success_count + (run_ops drain_trace).failed_count +
        (run_ops drain_trace).skipped_count ∧
    (run_ops drain_trace).processing_files = ∅ := by
  have h : (run_ops drain_trace).upload_queue = [] := by decide
  have hc := c4_drain drain_trace h
  exact ⟨h, hc.1, hc.2⟩

/-- C5: when every size sample succeeds, the prober declares the file stable
iff one of its `max_attempts` comparisons — the `k`-th comparing the
consecutive samples `2k` and `2k+1` — finds two equal sizes; in particular a
path whose size differs between every two consecutive samples is never
classified stable. -/
theorem c5_stability (sample : Nat → Option Nat) (m : Nat) (h : ∀ n, (sample n).isSome) :
    (is_file_stable sample m = true ↔ ∃ k, k < m ∧ sample (2 * k) = sample (2 * k + 1)) ∧
    ((∀ n, sample n ≠ sample (n + 1)) → is_file_stable sample m = false) := by
  have hiff : is_file_stable sample m = true ↔
      ∃ k, k < m ∧ sample (2 * k) = sample (2 * k + 1) := by
    unfold is_file_stable
    rw [stable_probe_iff sample h m 0]
    constructor
    · rintro ⟨j, hj, hje⟩; exact ⟨j, hj, by simpa using hje⟩
    · rintro ⟨k, hk, hke⟩; exact ⟨k, hk, by simpa using hke⟩
  refine ⟨hiff, fun hne => ?_⟩
  by_contra htrue
  have hT : is_file_stable sample m = true := by
    cases hb : is_file_stable sample m
    · exact absurd hb htrue
    · rfl
  obtain ⟨k, _, hke⟩ := hiff.mp hT
  exact hne (2 * k) hke

/-- Witness for `c5_stability` on a constant-size file. -/
theorem c5_witness : is_file_stable const_sample 3 = true :=
  (c5_stability const_sample 3 (fun _ => rfl)).1.mpr ⟨0, by omega, rfl⟩

/-- Modelled from the spec's words, for the C6 counterexample: the four
exclusion rules exactly as claim C6 states them, with rule 4 reading "any
path segment equal to an excluded directory name" — which includes the
filename segment itself. -/
def spec_exclusion_rules (p : FsPath) : Bool :=
  let file_name := p.getLastD ""
  (temp_patterns.any fun pat => str_ends_with file_name pat || str_starts_with file_name pat)
  || (str_starts_with file_name "." && decide (file_name ∉ [".env", ".gitignore"]))
  || str_ends_with file_name ".log"
  || (skip_dirs.any fun d => decide (d ∈ p))

/-- The amended rule set: identical to the claim's four rules except that
rule 4 scans only the segments of the directory part of the path, as the
code does with `file_dir.split(os.sep)`. -/
def spec_exclusion_rules_dir (p : FsPath) : Bool :=
  let file_name := p.getLastD ""
  let file_dir := p.dropLast
  (temp_patterns.any fun pat => str_ends_with file_name pat || str_starts_with file_name pat)
  || (str_starts_with file_name "." && decide (file_name ∉ [".env", ".gitignore"]))
  || str_ends_with file_name ".log"
  || (skip_dirs.any fun d => decide (d ∈ file_dir))

/-- A regular file named exactly `node_modules` inside the watched root. -/
def pNode : FsPath := ["", "watch", "node_modules"]

/-- C6: REFUTED as stated.  The path `/watch/node_modules` — a file whose name
equals an excluded directory name — matches the claim's rule 4 ("any path
segment equal to an excluded directory name"), yet `_should_skip_file` only
splits `os.path.dirname(path)`, returns `False`, and the handler enqueues an
UploadTask for it. -/
theorem c6_counterexample :
    spec_exclusion_rules pNode = true ∧
    should_skip_file pNode = false ∧
    (handle_file_change init_state pNode const_sample 3 (some "d")).upload_queue = [pNode] :=
  ⟨by decide, by decide, by decide⟩

/-- C6 (amended): for every path matching the four exclusion rules with
rule 4 restricted to the segments of the directory part, the skip predicate
returns true and the event handler creates no UploadTask (the state is
unchanged). -/
theorem c6_amended (p : FsPath) (h : spec_exclusion_rules_dir p = true) :
    should_skip_file p = true ∧
    ∀ (s : ListenerState) (sample : Nat → Option Nat) (m : Nat) (md5 : Option String),
      handle_file_change s p sample m md5 = s := by
  have hssf : should_skip_file p = spec_exclusion_rules_dir p := by
    unfold should_skip_file spec_exclusion_rules_dir
    exact if_chain_eq_or _ _ _ _
  have hs : should_skip_file p = true := by rw [hssf]; exact h
  refine ⟨hs, fun s sample m md5 => ?_⟩
  unfold handle_file_change
  rw [if_pos hs]

/-- A temp file inside the watched root. -/
def pTmp : FsPath := ["", "watch", "draft.tmp"]

/-- Witness for `c6_amended` on a concrete temp file. -/
theorem c6_amended_witness :
    spec_exclusion_rules_dir pTmp = true ∧ should_skip_file pTmp = true ∧
    handle_file_change init_state pTmp const_sample 3 (some "d") = init_state := by
  have h : spec_exclusion_rules_dir pTmp = true := by decide
  have hc := c6_amended pTmp h
  exact ⟨h, hc.1, hc.2 init_state const_sample 3 (some "d")⟩

/-- C7: the dedup cache is written only by a worker and only after a task
reaches the success branch — `add_upload_task` never writes it, and every
non-success outcome (missing file, `ok = false`, exception, failing md5
recomputation after a successful upload) leaves it unchanged; on a confirmed
success the worker records the recomputed digest for the path. -/
theorem c7_dedup_written_only_on_success (s : ListenerState) (p : FsPath) (fp : Bool)
    (res : UploadResult) (md md5 : Option String) (d : String)
    (h : fp = false ∨ res = UploadResult.fail ∨ res = UploadResult.exn ∨ md = none) :
    (add_upload_task s p md5).uploaded_files = s.uploaded_files ∧
    (process_task s p fp res md).uploaded_files = s.uploaded_files ∧
    (process_task s p true UploadResult.ok (some d)).uploaded_files p = some d := by
  refine ⟨?_, process_task_uploaded_of_no_success s p fp res md h, ?_⟩
  · rcases add_upload_task_cases s p md5 with hc | hc <;> rw [hc]
  · simp [process_task]

/-- Witness for `c7_dedup_written_only_on_success` at concrete inputs. -/
theorem c7_witness :
    (add_upload_task init_state pA (some "d")).uploaded_files = init_state.uploaded_files ∧
    (process_task init_state pA false UploadResult.ok (some "d")).uploaded_files =
      init_state.uploaded_files ∧
    (process_task init_state pA true UploadResult.ok (some "d")).uploaded_files pA = some "d" :=
  c7_dedup_written_only_on_success init_state pA false UploadResult.ok
    (some "d") (some "d") "d" (Or.inl rfl)

/-- C8: if the file is gone throughout the stability window (every `getsize`
raises), the probe reports unstable/vanished and the event handler drops the
event with the state unchanged: no UploadTask is enqueued, no counter moves,
and the in-flight set never gains the path. -/
theorem c8_vanished_dropped (s : ListenerState) (p : FsPath) (sample : Nat → Option Nat)
    (m : Nat) (md5 : Option String) (hgone : ∀ n, sample n = none) :
    is_file_stable sample m = false ∧ handle_file_change s p sample m md5 = s := by
  have hst : is_file_stable sample m = false := by
    cases m with
    | zero => rfl
    | succ k =>
      unfold is_file_stable stable_probe
      rw [hgone (2 * 0), hgone (2 * 0 + 1)]
  refine ⟨hst, ?_⟩
  unfold handle_file_change
  by_cases hsk : should_skip_file p = true
  · rw [if_pos hsk]
  · rw [if_neg hsk, if_neg (show ¬ is_file_stable sample m = true by
      rw [hst]; exact Bool.false_ne_true)]

/-- Witness for `c8_vanished_dropped` on a vanished file. -/
theorem c8_witness :
    is_file_stable gone_sample 3 = false ∧
    handle_file_change init_state pA gone_sample 3 (some "d") = init_state :=
  c8_vanished_dropped init_state pA gone_sample 3 (some "d") (fun _ => rfl)

/-- C9: a failing md5 computation during admission (`md5 = none`, the
exception caught at line 237) drops the event atomically: both
`add_upload_task` and the whole event handler return the state unchanged, so
the queue, all four counters (in particular `failed_count`), the dedup cache
and the in-flight set are exactly as before. -/
theorem c9_md5_failure_atomic (s : ListenerState) (p : FsPath)
    (sample : Nat → Option Nat) (m : Nat) :
    add_upload_task s p none = s ∧ handle_file_change s p sample m none = s := by
  have hadd : add_upload_task s p none = s := by
    unfold add_upload_task
    by_cases hp : p ∈ s.processing_files
    · rw [if_pos hp]
    · rw [if_neg hp]
  refine ⟨hadd, ?_⟩
  unfold handle_file_change
  by_cases hsk : should_skip_file p = true
  · rw [if_pos hsk]
  · rw [if_neg hsk]
    by_cases hst : is_file_stable sample m = true
    · rw [if_pos hst]; exact hadd
    · rw [if_neg hst]

/-- C10: the four statistics counters are monotone — every operation leaves
each counter unchanged or bumps it by exactly one; a worker iteration that
dequeues a task bumps `total_processed` by one together with exactly one of
`success_count`, `failed_count`, `skipped_count`; and along any continuation
of any run no counter ever decreases or resets. -/
theorem c10_counters_monotone (s : ListenerState) (op : Op) (p : FsPath)
    (rest : List FsPath) (fp : Bool) (res : UploadResult) (md : Option String)
    (ops tail : List Op) :
    (counters_le s (step s op) ∧
     (step s op).total_processed ≤ s.total_processed + 1 ∧
     (step s op).success_count ≤ s.success_count + 1 ∧
     (step s op).failed_count ≤ s.failed_count + 1 ∧
     (step s op).skipped_count ≤ s.skipped_count + 1) ∧
    (s.running = true → s.upload_queue = p :: rest →
      (worker_step s fp res md).total_processed = s.total_processed + 1 ∧
      (((worker_step s fp res md).success_count = s.success_count + 1 ∧
        (worker_step s fp res md).failed_count = s.failed_count ∧
        (worker_step s fp res md).skipped_count = s.skipped_count) ∨
       ((worker_step s fp res md).success_count = s.success_count ∧
        (worker_step s fp res md).failed_count = s.failed_count + 1 ∧
        (worker_step s fp res md).skipped_count = s.skipped_count) ∨
       ((worker_step s fp res md).success_count = s.success_count ∧
        (worker_step s fp res md).failed_count = s.failed_count ∧
        (worker_step s fp res md).skipped_count = s.skipped_count + 1))) ∧
    counters_le (run_ops ops) (run_ops (ops ++ tail)) := by
  refine ⟨step_counters s op, fun hr hq =>
    ⟨worker_step_total s fp res md p rest hr hq,
     worker_step_outcome s fp res md p rest hr hq⟩, ?_⟩
  unfold run_ops
  rw [List.foldl_append]
  exact foldl_counters_le tail (List.foldl step init_state ops)

/-- A started listener with one task for `/watch/a.txt` already queued. -/
def busy_state : ListenerState := { init_state with upload_queue := [pA] }

/-- Witness for `c10_counters_monotone` at concrete inputs. -/
theorem c10_witness :
    (worker_step busy_state true UploadResult.ok (some "d")).total_processed =
      busy_state.total_processed + 1 ∧
    counters_le (run_ops []) (run_ops ([] ++ [Op.work true UploadResult.ok (some "d")])) := by
  have hc := c10_counters_monotone busy_state Op.stop pA [] true UploadResult.ok (some "d")
    [] [Op.work true UploadResult.ok (some "d")]
  exact ⟨(hc.2.1 rfl rfl).1, hc.2.2⟩

end FileListener
